import Mathlib

/-!
Shallow embedding of the solar-wind plotting scripts (src/bz.py and
src/bz-2.py): the row parser, the timestamp-keyed dictionaries, the
series joiner, the arrival predictor, the window filter, the refresh
state update and the hover hit-test.

Modelling conventions:
* timestamps and float values are rationals (`ℚ`): timestamps count
  seconds on an absolute axis, except in the hover handler where the
  matplotlib day-unit axis of the source is kept;
* a Python dict is an insertion-ordered association list whose update
  keeps the position of an existing key (`dinsert`);
* a raised-and-caught exception is `Except Unit`;
* a JSON cell is abstracted by which parses accept it: `Cell.timeStr t`
  is a string in the fixed format "%Y-%m-%d %H:%M:%S.%f" denoting time
  t, `Cell.numVal v` is a value accepted by float(), `Cell.null` is
  JSON null, and `Cell.malformed` is any other value;
* a row of a decoded array payload is a `Row` by JSON shape: an array
  row carries its cell list, an object row makes row[0] raise KeyError
  (a class the row loops do not catch), and a scalar row (string,
  number, boolean or null) makes its iteration raise only ValueError,
  TypeError or IndexError (the classes the row loops do catch).
-/

/-- Python dict with ℚ keys and ℚ values, as an ordered association list. -/
abbrev Dict : Type := List (ℚ × ℚ)

/-- Lookup in a dict: value of the first (hence unique, in dicts built by
the code) pair with the given key. -/
def dlookup : Dict → ℚ → Option ℚ
  | [], _ => none
  | (k, v) :: rest, t => if k = t then some v else dlookup rest t

/-- Python dict assignment d[k] = v: an existing key keeps its position
and gets the new value, a new key is appended. -/
def dinsert : Dict → ℚ → ℚ → Dict
  | [], k, v => [(k, v)]
  | (k0, v0) :: rest, k, v =>
      if k0 = k then (k0, v) :: rest else (k0, v0) :: dinsert rest k v

/-- The key list of a dict (Python d.keys()). -/
def dkeys (d : Dict) : List ℚ := d.map Prod.fst

/-- A JSON cell of a feed row, abstracted by which parses accept it. -/
inductive Cell : Type
  | null : Cell
  | timeStr : ℚ → Cell
  | numVal : ℚ → Cell
  | malformed : Cell
deriving DecidableEq

/-- datetime.strptime(c, "%Y-%m-%d %H:%M:%S.%f"): succeeds exactly on a
string in the fixed format, raises ValueError/TypeError otherwise
(`none` models the raise). -/
def strptimeFixed : Cell → Option ℚ
  | Cell.timeStr t => some t
  | _ => none

/-- float(c): succeeds exactly on a number or numeric string, raises
ValueError/TypeError otherwise (`none` models the raise). -/
def floatCell : Cell → Option ℚ
  | Cell.numVal v => some v
  | _ => none

/-- The body of the per-row try-block shared by fetch_mag_data
(src/bz-2.py lines 39-47) and fetch_and_parse_data (src/bz.py lines
69-86): time from column 0, value from column 3; `.error` is a raised
exception (IndexError, ValueError or TypeError), `.ok none` is the
silent skip of a null value field. -/
def parseRowTry (row : List Cell) : Except Unit (Option (ℚ × ℚ)) :=
  match row[0]? with
  | none => Except.error ()
  | some c0 =>
    match strptimeFixed c0 with
    | none => Except.error ()
    | some t =>
      match row[3]? with
      | none => Except.error ()
      | some c3 =>
        match c3 with
        | Cell.null => Except.ok none
        | _ =>
          match floatCell c3 with
          | none => Except.error ()
          | some v => Except.ok (some (t, v))

/-- One row of the parsing loop after its except-clause: a raised
exception is caught and the row is dropped. -/
def parseRow (row : List Cell) : Option (ℚ × ℚ) :=
  match parseRowTry row with
  | Except.error _ => none
  | Except.ok o => o

/-- One iteration of the dict-building loop of fetch_mag_data:
mag_dict[dt] = float(bz) on success, no change on a dropped row. -/
def magStep (d : Dict) (row : List Cell) : Dict :=
  match parseRow row with
  | none => d
  | some (t, v) => dinsert d t v

/-- The dict-building loop of fetch_mag_data over the data rows (the
rows after the header). -/
def magParse (rows : List (List Cell)) : Dict :=
  rows.foldl magStep []

/-- The list-building loop of fetch_and_parse_data (src/bz.py): a
well-formed row appends its timestamp and value to two parallel lists. -/
def parseRows : List (List Cell) → List ℚ × List ℚ
  | [] => ([], [])
  | row :: rest =>
    let r := parseRows rest
    match parseRow row with
    | none => r
    | some (t, v) => (t :: r.1, v :: r.2)

/-- Python exception classes relevant to the row loops: `caught` is
ValueError, TypeError or IndexError, the classes named in the per-row
except clause of both scripts; `keyError` is KeyError, raised when a
JSON-object row is indexed (it has no key 0) and absent from that
clause. -/
inductive PyErr : Type
  | caught : PyErr
  | keyError : PyErr

/-- One row of a decoded array payload, by JSON shape: `cells` is an
array row, `obj` an object row (row[0] raises KeyError), `scalar` a
string, number, boolean or null row (row[0] raises TypeError, or
yields a character whose strptime raises ValueError — classes the row
loops catch). -/
inductive Row : Type
  | cells : List Cell → Row
  | obj : Row
  | scalar : Row

/-- The try-block of one row-loop iteration on an arbitrarily shaped
row, tagging a raise with its exception class. -/
def rowTry (row : Row) : Except PyErr (Option (ℚ × ℚ)) :=
  match row with
  | Row.obj => Except.error PyErr.keyError
  | Row.scalar => Except.error PyErr.caught
  | Row.cells cs =>
    match parseRowTry cs with
    | Except.error _ => Except.error PyErr.caught
    | Except.ok o => Except.ok o

/-- One row-loop iteration after its except clause: the clause names
(ValueError, TypeError, IndexError), so a `caught` raise is swallowed
and the row dropped, while a KeyError escapes the loop. -/
def rowStep (row : Row) : Except Unit (Option (ℚ × ℚ)) :=
  match rowTry row with
  | Except.error PyErr.caught => Except.ok none
  | Except.error PyErr.keyError => Except.error ()
  | Except.ok o => Except.ok o

/-- The cell list a row contributes entries from: a non-array row
contributes like an empty array row (both are dropped). -/
def rowCells : Row → List Cell
  | Row.cells cs => cs
  | _ => []

/-- The list-building loop of fetch_and_parse_data (src/bz.py lines
68-86) over arbitrarily shaped rows: an escaping KeyError aborts the
whole loop and propagates. -/
def parseRowsLoop : List Row → Except Unit (List ℚ × List ℚ)
  | [] => Except.ok ([], [])
  | row :: rest =>
    match rowStep row with
    | Except.error e => Except.error e
    | Except.ok none => parseRowsLoop rest
    | Except.ok (some (t, v)) =>
      match parseRowsLoop rest with
      | Except.error e => Except.error e
      | Except.ok r => Except.ok (t :: r.1, v :: r.2)

/-- The dict-building loop of fetch_mag_data (src/bz-2.py lines 38-47)
over arbitrarily shaped rows, from an accumulator dict: an escaping
KeyError aborts the loop, to be caught by the function-level
except Exception. -/
def magParseE : Dict → List Row → Except Unit Dict
  | d, [] => Except.ok d
  | d, row :: rest =>
    match rowStep row with
    | Except.error e => Except.error e
    | Except.ok none => magParseE d rest
    | Except.ok (some (t, v)) => magParseE (dinsert d t v) rest

/-- A decoded top-level JSON payload, by shape: `jobj k` is an object
with k keys, `jarr` an array of rows. -/
inductive TopLevel : Type
  | null : TopLevel
  | jbool : Bool → TopLevel
  | jnum : ℚ → TopLevel
  | jobj : Nat → TopLevel
  | jarr : List Row → TopLevel

/-- Python truthiness of a decoded payload. -/
def pyTruthy : TopLevel → Bool
  | TopLevel.null => false
  | TopLevel.jbool b => b
  | TopLevel.jnum n => if n = 0 then false else true
  | TopLevel.jobj k => if k = 0 then false else true
  | TopLevel.jarr rows => !rows.isEmpty

/-- len(data): defined for sized payloads, raises TypeError (`none`)
on numbers and booleans. -/
def pyLen : TopLevel → Option Nat
  | TopLevel.jobj k => some k
  | TopLevel.jarr rows => some rows.length
  | _ => none

/-- data[1:]: defined on arrays, raises TypeError (`none`) otherwise. -/
def pySlice1 : TopLevel → Option (List Row)
  | TopLevel.jarr rows => some (rows.drop 1)
  | _ => none

/-- fetch_and_parse_data of src/bz.py, over the outcome of the HTTP
fetch and JSON decode: `.error` input is a RequestException or
JSONDecodeError (caught, lines 53-58); the top-level checks of lines
63-68 follow, where a TypeError from len(data) or data[1:] is NOT
caught and propagates (`.error` output), and neither is a KeyError
escaping the row loop. -/
def fetch_and_parse_data (outcome : Except Unit TopLevel) :
    Except Unit (List ℚ × List ℚ) :=
  match outcome with
  | Except.error _ => Except.ok ([], [])
  | Except.ok data =>
    if pyTruthy data = false then Except.ok ([], [])
    else
      match pyLen data with
      | none => Except.error ()
      | some n =>
        if n < 2 then Except.ok ([], [])
        else
          match pySlice1 data with
          | none => Except.error ()
          | some rows => parseRowsLoop rows

/-- The try-block of fetch_mag_data of src/bz-2.py before its
except-clause: same top-level structure as src/bz.py but the guard is
`if data and len(data) >= 2` and the result is a dict. -/
def fetch_mag_run (outcome : Except Unit TopLevel) : Except Unit Dict :=
  match outcome with
  | Except.error e => Except.error e
  | Except.ok data =>
    if pyTruthy data = false then Except.ok []
    else
      match pyLen data with
      | none => Except.error ()
      | some n =>
        if n < 2 then Except.ok []
        else
          match pySlice1 data with
          | none => Except.error ()
          | some rows => magParseE [] rows

/-- fetch_mag_data of src/bz-2.py: the whole body sits in a
`try/except Exception` that returns the empty dict on any raise. -/
def fetch_mag_data (outcome : Except Unit TopLevel) : Dict :=
  match fetch_mag_run outcome with
  | Except.ok d => d
  | Except.error _ => []

/-- merge_data of src/bz-2.py lines 79-95: sorted set intersection of
the key sets, then parallel value lists read off the two dicts. The
dedup realises the set (a Python dict already has distinct keys); the
lookups fall back to 0 on a missing key, which never happens since the
common keys are keys of both dicts. -/
def merge_data (mag_dict plasma_dict : Dict) :
    List ℚ × List ℚ × List ℚ :=
  let common_times : List ℚ :=
    List.insertionSort (· ≤ ·)
      (((dkeys mag_dict).filter (fun t => t ∈ dkeys plasma_dict)).dedup)
  (common_times,
   common_times.map (fun t => (dlookup mag_dict t).getD 0),
   common_times.map (fun t => (dlookup plasma_dict t).getD 0))

/-- L1_TO_EARTH_KM of src/bz-2.py line 16. -/
def L1_TO_EARTH_KM : ℚ := 1500000

/-- HOURS_TO_DISPLAY (6 in both scripts). -/
def HOURS_TO_DISPLAY : ℚ := 6

/-- calculate_arrival_time of src/bz-2.py lines 97-104: None when
speed ≤ 0, else the measurement time plus distance over speed in
seconds. -/
def calculate_arrival_time (measurement_time speed_km_s : ℚ) : Option ℚ :=
  if speed_km_s ≤ 0 then none
  else some (measurement_time + L1_TO_EARTH_KM / speed_km_s)

/-- zip of three equal-role lists, as Python zip truncating at the
shortest. -/
def zip3 : List ℚ → List ℚ → List ℚ → List (ℚ × ℚ × ℚ)
  | t :: ts, b :: bs, s :: ss => (t, b, s) :: zip3 ts bs ss
  | _, _, _ => []

/-- The filter-and-derive loop of update_plot (src/bz-2.py lines
242-256): keep samples with t >= cutoff, appending in order to four
parallel lists; the fourth holds calculate_arrival_time of the kept
sample (a datetime is always truthy, so the `if arrival` of line 253
appends exactly the optional value). -/
def windowFilter (cutoff : ℚ) :
    List (ℚ × ℚ × ℚ) → List ℚ × List ℚ × List ℚ × List (Option ℚ)
  | [] => ([], [], [], [])
  | (t, bz, speed) :: rest =>
    let r := windowFilter cutoff rest
    if cutoff ≤ t then
      (t :: r.1, bz :: r.2.1, speed :: r.2.2.1,
       calculate_arrival_time t speed :: r.2.2.2)
    else r

/-- The shared presentation state current_plot_data of src/bz-2.py
line 27. -/
structure PlotData : Type where
  times : List ℚ
  bz : List ℚ
  speeds : List ℚ
  arrivals : List (Option ℚ)
deriving DecidableEq

/-- The series current_plot_data would receive from a refresh at time
`now` with fetched dicts `mag` and `plasma`: merge, then window filter
with cutoff now minus HOURS_TO_DISPLAY hours (lines 229-256 of
src/bz-2.py). -/
def refreshResult (mag plasma : Dict) (now : ℚ) : PlotData :=
  let m := merge_data mag plasma
  let cutoff := now - HOURS_TO_DISPLAY * 3600
  let w := windowFilter cutoff (zip3 m.1 m.2.1 m.2.2)
  ⟨w.1, w.2.1, w.2.2.1, w.2.2.2⟩

/-- update_plot of src/bz-2.py as a transition on the shared state: the
early returns of lines 233-235 (empty merge) and 258-260 (empty window)
leave current_plot_data untouched; otherwise lines 353-357 replace all
four fields with the freshly computed series. -/
def update_plot (mag plasma : Dict) (now : ℚ) (st : PlotData) : PlotData :=
  let m := merge_data mag plasma
  if m.1 = [] then st
  else
    let r := refreshResult mag plasma now
    if r.times = [] then st else r

/-- The closest-point loop of on_hover (src/bz-2.py lines 141-148):
fold over the indexed times, keeping the strictly smallest distance to
the pointer (first index wins ties); the `none` accumulator is the
initial min_dist = inf, closest_idx = None state. -/
def closestAux (mouse_x : ℚ) :
    List ℚ → Nat → Option (ℚ × Nat) → Option (ℚ × Nat)
  | [], _, acc => acc
  | t :: rest, i, acc =>
    let dist := |t - mouse_x|
    match acc with
    | none => closestAux mouse_x rest (i + 1) (some (dist, i))
    | some (md, j) =>
      if dist < md then closestAux mouse_x rest (i + 1) (some (dist, i))
      else closestAux mouse_x rest (i + 1) (some (md, j))

/-- on_hover of src/bz-2.py lines 106-212, reduced to its data
decision: with times on the matplotlib day axis and the pointer at
mouse_x (also in days), return the index of the annotated sample, or
none when the plot data is empty or the closest sample is 600 seconds
or further (lines 124-125, 141-158; min_dist is converted to seconds by
the factor 86400 of line 151). -/
def on_hover (times : List ℚ) (mouse_x : ℚ) : Option Nat :=
  if times.isEmpty then none
  else
    match closestAux mouse_x times 0 none with
    | none => none
    | some (md, i) => if md * 86400 < 600 then some i else none

/-- Value of the last pair carrying the given key, if any. -/
def lastVal : List (ℚ × ℚ) → ℚ → Option ℚ
  | [], _ => none
  | (k, v) :: rest, t =>
    match lastVal rest t with
    | some w => some w
    | none => if k = t then some v else none

/-! ### Helper lemmas -/

lemma zip3_nil_left (bs ss : List ℚ) : zip3 [] bs ss = [] := by
  cases bs <;> cases ss <;> rfl

lemma windowFilter_eq (c : ℚ) (l : List (ℚ × ℚ × ℚ)) :
    windowFilter c l =
      ((l.filter fun x => decide (c ≤ x.1)).map (fun x => x.1),
       (l.filter fun x => decide (c ≤ x.1)).map (fun x => x.2.1),
       (l.filter fun x => decide (c ≤ x.1)).map (fun x => x.2.2),
       (l.filter fun x => decide (c ≤ x.1)).map
         (fun x => calculate_arrival_time x.1 x.2.2)) := by
  induction l with
  | nil => rfl
  | cons hd tl ih =>
    obtain ⟨t, b, s⟩ := hd
    by_cases h : c ≤ t <;> simp [windowFilter, h, ih, List.filter_cons]

lemma merge_times_sorted (mag plasma : Dict) :
    List.Sorted (· ≤ ·) (merge_data mag plasma).1 := by
  simp only [merge_data]
  exact List.sorted_insertionSort _ _

lemma merge_times_nodup (mag plasma : Dict) :
    ((merge_data mag plasma).1).Nodup := by
  simp only [merge_data]
  exact ((List.perm_insertionSort _ _).nodup_iff).mpr (List.nodup_dedup _)

lemma merge_mem_iff (mag plasma : Dict) (t : ℚ) :
    t ∈ (merge_data mag plasma).1 ↔ t ∈ dkeys mag ∧ t ∈ dkeys plasma := by
  simp [merge_data, List.mem_filter]

lemma merge_bz_eq (mag plasma : Dict) :
    (merge_data mag plasma).2.1 =
      ((merge_data mag plasma).1).map (fun t => (dlookup mag t).getD 0) := rfl

lemma merge_speed_eq (mag plasma : Dict) :
    (merge_data mag plasma).2.2 =
      ((merge_data mag plasma).1).map (fun t => (dlookup plasma t).getD 0) := rfl

/-! ### Claim theorems: joiner, predictor, filter, state update -/

/-- C1: merge_data returns parallel sequences of equal length; the
timestamp sequence is the ascending sorted intersection of the two key
sets; the i-th field value reads the first mapping at the i-th
timestamp and the i-th speed value the second mapping; disjoint key
sets yield three empty sequences. -/
theorem c1_series_joiner (mag plasma : Dict) :
    List.Sorted (· ≤ ·) (merge_data mag plasma).1 ∧
    (∀ t : ℚ, t ∈ (merge_data mag plasma).1 ↔ (t ∈ dkeys mag ∧ t ∈ dkeys plasma)) ∧
    ((merge_data mag plasma).2.1).length = ((merge_data mag plasma).1).length ∧
    ((merge_data mag plasma).2.2).length = ((merge_data mag plasma).1).length ∧
    (∀ i : Nat, ((merge_data mag plasma).2.1)[i]? =
      ((merge_data mag plasma).1)[i]?.map (fun t => (dlookup mag t).getD 0)) ∧
    (∀ i : Nat, ((merge_data mag plasma).2.2)[i]? =
      ((merge_data mag plasma).1)[i]?.map (fun t => (dlookup plasma t).getD 0)) ∧
    ((∀ t : ℚ, t ∈ dkeys mag → t ∉ dkeys plasma) →
      (merge_data mag plasma).1 = [] ∧ (merge_data mag plasma).2.1 = [] ∧
        (merge_data mag plasma).2.2 = []) := by
  refine ⟨merge_times_sorted mag plasma, fun t => merge_mem_iff mag plasma t,
    ?_, ?_, ?_, ?_, ?_⟩
  · rw [merge_bz_eq]; exact List.length_map _ _
  · rw [merge_speed_eq]; exact List.length_map _ _
  · intro i; rw [merge_bz_eq]; exact List.getElem?_map _ _ _
  · intro i; rw [merge_speed_eq]; exact List.getElem?_map _ _ _
  · intro hdisj
    have hnil : (merge_data mag plasma).1 = [] := by
      apply List.eq_nil_iff_forall_not_mem.mpr
      intro t ht
      have hm := (merge_mem_iff mag plasma t).mp ht
      exact hdisj t hm.1 hm.2
    refine ⟨hnil, ?_, ?_⟩
    · rw [merge_bz_eq, hnil]; rfl
    · rw [merge_speed_eq, hnil]; rfl

/-- Witness for C1: two concrete disjoint dictionaries give an empty
joined timestamp sequence. -/
theorem c1_series_joiner_witness :
    (∀ t : ℚ, t ∈ dkeys [((1:ℚ), (10:ℚ))] → t ∉ dkeys [((2:ℚ), (20:ℚ))]) ∧
    (merge_data [((1:ℚ), (10:ℚ))] [((2:ℚ), (20:ℚ))]).1 = [] := by
  have hd : ∀ t : ℚ, t ∈ dkeys [((1:ℚ), (10:ℚ))] → t ∉ dkeys [((2:ℚ), (20:ℚ))] := by
    intro t ht
    simp [dkeys] at ht ⊢
    rw [ht]
    norm_num
  exact ⟨hd, ((c1_series_joiner _ _).2.2.2.2.2.2 hd).1⟩

/-- C2: calculate_arrival_time adds 1,500,000 km divided by the speed
(in seconds) to the measurement time when the speed is positive and
returns None when the speed is zero or negative; at speed 1500000/3600
the arrival is exactly one hour later. -/
theorem c2_arrival_predictor (t s : ℚ) :
    (s ≤ 0 → calculate_arrival_time t s = none) ∧
    (0 < s → calculate_arrival_time t s = some (t + 1500000 / s)) ∧
    calculate_arrival_time t (1500000 / 3600) = some (t + 3600) ∧
    calculate_arrival_time t 0 = none ∧
    calculate_arrival_time t (-5) = none := by
  refine ⟨fun h => ?_, fun h => ?_, ?_, ?_, ?_⟩
  · simp [calculate_arrival_time, h]
  · simp [calculate_arrival_time, not_le.mpr h, L1_TO_EARTH_KM]
  · norm_num [calculate_arrival_time, L1_TO_EARTH_KM]
  · simp [calculate_arrival_time]
  · norm_num [calculate_arrival_time]

/-- Witness for C2 at measurement time 0 and speed 2 km/s. -/
theorem c2_arrival_predictor_witness :
    (0:ℚ) < 2 ∧ calculate_arrival_time 0 2 = some (0 + 1500000 / 2) :=
  ⟨by norm_num, (c2_arrival_predictor 0 2).2.1 (by norm_num)⟩

/-- C3: the update_plot window filter keeps exactly the samples whose
timestamp is at least the cutoff, preserving relative order across the
parallel sequences; on samples at t-7h, t-5h, t-1h with the 6-hour
lookback evaluated at time t, exactly t-5h and t-1h survive, in that
order. -/
theorem c3_window_filter :
    (∀ (c : ℚ) (l : List (ℚ × ℚ × ℚ)),
      (windowFilter c l).1 =
        (l.filter fun x => decide (c ≤ x.1)).map (fun x => x.1) ∧
      (windowFilter c l).2.1 =
        (l.filter fun x => decide (c ≤ x.1)).map (fun x => x.2.1) ∧
      (windowFilter c l).2.2.1 =
        (l.filter fun x => decide (c ≤ x.1)).map (fun x => x.2.2)) ∧
    (∀ t b1 b2 b3 s1 s2 s3 : ℚ,
      (windowFilter (t - HOURS_TO_DISPLAY * 3600)
          [(t - 7 * 3600, b1, s1), (t - 5 * 3600, b2, s2),
           (t - 1 * 3600, b3, s3)]).1 = [t - 5 * 3600, t - 1 * 3600] ∧
      (windowFilter (t - HOURS_TO_DISPLAY * 3600)
          [(t - 7 * 3600, b1, s1), (t - 5 * 3600, b2, s2),
           (t - 1 * 3600, b3, s3)]).2.1 = [b2, b3]) := by
  constructor
  · intro c l
    rw [windowFilter_eq]
    exact ⟨rfl, rfl, rfl⟩
  · intro t b1 b2 b3 s1 s2 s3
    have h7 : ¬ (t - HOURS_TO_DISPLAY * 3600 ≤ t - 7 * 3600) := by
      simp only [HOURS_TO_DISPLAY]
      intro h
      linarith
    have h5 : t - HOURS_TO_DISPLAY * 3600 ≤ t - 5 * 3600 := by
      simp only [HOURS_TO_DISPLAY]
      linarith
    have h1 : t - HOURS_TO_DISPLAY * 3600 ≤ t - 1 * 3600 := by
      simp only [HOURS_TO_DISPLAY]
      linarith
    constructor <;>
      · simp only [windowFilter]
        rw [if_neg h7, if_pos h5, if_pos h1]

/-- C7: one refresh of update_plot either leaves the shared plot state
exactly as it was (and then the freshly computed window is empty) or
replaces it entirely with the freshly computed series; no refresh mixes
old and new fields. -/
theorem c7_refresh_state (mag plasma : Dict) (now : ℚ) (st : PlotData) :
    (update_plot mag plasma now st = st ∧
      (refreshResult mag plasma now).times = []) ∨
    (update_plot mag plasma now st = refreshResult mag plasma now ∧
      (refreshResult mag plasma now).times ≠ []) := by
  by_cases hm : (merge_data mag plasma).1 = []
  · left
    have ht : (refreshResult mag plasma now).times = [] := by
      simp [refreshResult, hm, zip3_nil_left, windowFilter]
    exact ⟨by simp [update_plot, hm], ht⟩
  · by_cases hr : (refreshResult mag plasma now).times = []
    · left
      exact ⟨by simp [update_plot, hm, refreshResult] at hr ⊢; simp [hr], hr⟩
    · right
      exact ⟨by simp [update_plot, hm, refreshResult] at hr ⊢; simp [hr], hr⟩

/-- Witness for C7 at a concrete refresh. -/
theorem c7_refresh_state_witness :
    (update_plot [((0:ℚ), (5:ℚ))] [((0:ℚ), (2:ℚ))] 0 ⟨[], [], [], []⟩ =
        (⟨[], [], [], []⟩ : PlotData) ∧
      (refreshResult [((0:ℚ), (5:ℚ))] [((0:ℚ), (2:ℚ))] 0).times = []) ∨
    (update_plot [((0:ℚ), (5:ℚ))] [((0:ℚ), (2:ℚ))] 0 ⟨[], [], [], []⟩ =
        refreshResult [((0:ℚ), (5:ℚ))] [((0:ℚ), (2:ℚ))] 0 ∧
      (refreshResult [((0:ℚ), (5:ℚ))] [((0:ℚ), (2:ℚ))] 0).times ≠ []) :=
  c7_refresh_state _ _ _ _

/-- C10: the timestamp sequence merge_data outputs is strictly
increasing and duplicate-free, for every pair of input dictionaries,
including ones built from payloads with duplicate-timestamp rows. -/
theorem c10_strictly_increasing (mag plasma : Dict) :
    List.Sorted (· < ·) (merge_data mag plasma).1 ∧
    ((merge_data mag plasma).1).Nodup :=
  ⟨(merge_times_sorted mag plasma).lt_of_le (merge_times_nodup mag plasma),
   merge_times_nodup mag plasma⟩

/-! ### Row parsing lemmas -/

lemma parseRow_wellformed (row : List Cell) (t v : ℚ)
    (h0 : row[0]? = some (Cell.timeStr t)) (h3 : row[3]? = some (Cell.numVal v)) :
    parseRow row = some (t, v) := by
  simp [parseRow, parseRowTry, h0, h3, strptimeFixed, floatCell]

lemma dlookup_dinsert (d : Dict) (k v t : ℚ) :
    dlookup (dinsert d k v) t = if k = t then some v else dlookup d t := by
  induction d with
  | nil => simp [dinsert, dlookup]
  | cons hd rest ih =>
    obtain ⟨k0, v0⟩ := hd
    by_cases h : k0 = k
    · subst h
      by_cases h2 : k0 = t <;> simp [dinsert, dlookup, h2]
    · by_cases h2 : k0 = t
      · subst h2
        have hk2 : ¬ (k = k0) := fun hk => h hk.symm
        simp [dinsert, dlookup, h, hk2]
      · simp [dinsert, dlookup, h, h2, ih]

lemma foldl_magStep_lookup (rows : List (List Cell)) (d : Dict) (t : ℚ) :
    dlookup (List.foldl magStep d rows) t =
      match lastVal (rows.filterMap parseRow) t with
      | some w => some w
      | none => dlookup d t := by
  induction rows generalizing d with
  | nil => simp [lastVal]
  | cons row rest ih =>
    rcases hp : parseRow row with _ | kv
    · simp only [List.foldl_cons, List.filterMap_cons, hp]
      have hstep : magStep d row = d := by simp [magStep, hp]
      rw [hstep, ih]
    · obtain ⟨k, v⟩ := kv
      simp only [List.foldl_cons, List.filterMap_cons, hp]
      have hstep : magStep d row = dinsert d k v := by simp [magStep, hp]
      rw [hstep, ih]
      rcases hl : lastVal (rest.filterMap parseRow) t with _ | w
      · by_cases hk : k = t <;> simp [lastVal, hl, dlookup_dinsert, hk]
      · simp [lastVal, hl]

lemma mem_dkeys_dinsert (d : Dict) (k v x : ℚ) :
    x ∈ dkeys (dinsert d k v) ↔ x ∈ dkeys d ∨ x = k := by
  induction d with
  | nil => simp [dinsert, dkeys]
  | cons hd rest ih =>
    obtain ⟨k0, v0⟩ := hd
    by_cases hk : k0 = k
    · subst hk
      simp [dinsert, dkeys]
      tauto
    · simp [dinsert, hk, dkeys] at ih ⊢
      tauto

lemma nodup_dkeys_dinsert (d : Dict) (k v : ℚ) (h : (dkeys d).Nodup) :
    (dkeys (dinsert d k v)).Nodup := by
  induction d with
  | nil => simp [dinsert, dkeys]
  | cons hd rest ih =>
    obtain ⟨k0, v0⟩ := hd
    simp only [dkeys, List.map_cons, List.nodup_cons] at h
    by_cases hk : k0 = k
    · subst hk
      have hins : dinsert ((k0, v0) :: rest) k0 v = (k0, v) :: rest := by
        simp [dinsert]
      rw [hins]
      simp only [dkeys, List.map_cons, List.nodup_cons]
      exact ⟨fun hm => h.1 hm, h.2⟩
    · have ih2 := ih h.2
      simp only [dinsert, if_neg hk, dkeys, List.map_cons, List.nodup_cons]
      refine ⟨?_, ih2⟩
      intro hmem
      rcases (mem_dkeys_dinsert rest k v k0).mp hmem with h1 | h1
      · exact h.1 h1
      · exact hk h1

lemma magParse_nodup_aux (rows : List (List Cell)) (d : Dict)
    (h : (dkeys d).Nodup) : (dkeys (List.foldl magStep d rows)).Nodup := by
  induction rows generalizing d with
  | nil => simpa using h
  | cons row rest ih =>
    simp only [List.foldl_cons]
    refine ih (magStep d row) ?_
    rcases hp : parseRow row with _ | kv
    · simpa [magStep, hp] using h
    · obtain ⟨k, v⟩ := kv
      have hstep : magStep d row = dinsert d k v := by simp [magStep, hp]
      rw [hstep]
      exact nodup_dkeys_dinsert d k v h

/-! ### Claim theorems: row parsing -/

/-- C4: the per-row parsing loop drops every defective row instead of
raising: a null value field, a value field float() rejects, a row with
fewer than four columns and a timestamp field not in the fixed format
all produce no entry (any raised exception is caught and produces no
entry), while a well-formed row produces exactly one entry, both in
the dict loop of src/bz-2.py and the parallel-list loop of src/bz.py. -/
theorem c4_row_parsing :
    (∀ row : List Cell, row[3]? = some Cell.null → parseRow row = none) ∧
    (∀ row : List Cell, row[3]? = some Cell.malformed → parseRow row = none) ∧
    (∀ row : List Cell, row.length < 4 → parseRow row = none) ∧
    (∀ (row : List Cell) (c : Cell), row[0]? = some c → strptimeFixed c = none →
      parseRow row = none) ∧
    (∀ row : List Cell, parseRowTry row = Except.error () → parseRow row = none) ∧
    (∀ (row : List Cell) (t v : ℚ), row[0]? = some (Cell.timeStr t) →
      row[3]? = some (Cell.numVal v) → parseRow row = some (t, v)) ∧
    (∀ (rows : List (List Cell)) (row : List Cell) (t v : ℚ),
      row[0]? = some (Cell.timeStr t) → row[3]? = some (Cell.numVal v) →
      parseRows (row :: rows) =
        (t :: (parseRows rows).1, v :: (parseRows rows).2)) := by
  refine ⟨?_, ?_, ?_, ?_, ?_, ?_, ?_⟩
  · intro row h3
    rcases h0 : row[0]? with _ | c0
    · simp [parseRow, parseRowTry, h0]
    · rcases hs : strptimeFixed c0 with _ | t
      · simp [parseRow, parseRowTry, h0, hs]
      · simp [parseRow, parseRowTry, h0, hs, h3]
  · intro row h3
    rcases h0 : row[0]? with _ | c0
    · simp [parseRow, parseRowTry, h0]
    · rcases hs : strptimeFixed c0 with _ | t
      · simp [parseRow, parseRowTry, h0, hs]
      · simp [parseRow, parseRowTry, h0, hs, h3, floatCell]
  · intro row hlen
    have h3 : row[3]? = none := List.getElem?_eq_none (by omega)
    rcases h0 : row[0]? with _ | c0
    · simp [parseRow, parseRowTry, h0]
    · rcases hs : strptimeFixed c0 with _ | t
      · simp [parseRow, parseRowTry, h0, hs]
      · simp [parseRow, parseRowTry, h0, hs, h3]
  · intro row c h0 hs
    simp [parseRow, parseRowTry, h0, hs]
  · intro row h
    simp [parseRow, h]
  · exact fun row t v h0 h3 => parseRow_wellformed row t v h0 h3
  · intro rows row t v h0 h3
    simp [parseRows, parseRow_wellformed row t v h0 h3]

/-- Witness for C4: a null-valued row and a short row are dropped, a
well-formed row yields its entry. -/
theorem c4_row_parsing_witness :
    parseRow [Cell.timeStr 0, Cell.null, Cell.null, Cell.null] = none ∧
    parseRow [Cell.timeStr 0, Cell.null] = none ∧
    parseRow [Cell.timeStr 0, Cell.null, Cell.null, Cell.numVal 7] =
      some (0, 7) :=
  ⟨c4_row_parsing.1 _ rfl, c4_row_parsing.2.2.1 _ (by simp),
   c4_row_parsing.2.2.2.2.2.1 _ 0 7 rfl rfl⟩

/-- C5: the parsing loop of fetch_mag_data yields a timestamp-to-float
mapping whose key list has no duplicates, and the value it holds at a
timestamp is the value of the last well-formed row carrying that
timestamp. -/
theorem c5_last_wins (rows : List (List Cell)) (t : ℚ) :
    dlookup (magParse rows) t = lastVal (rows.filterMap parseRow) t ∧
    (dkeys (magParse rows)).Nodup := by
  constructor
  · rcases hl : lastVal (rows.filterMap parseRow) t with _ | w <;>
      simpa [magParse, hl, dlookup] using foldl_magStep_lookup rows [] t
  · exact magParse_nodup_aux rows [] (by simp [dkeys])

/-! ### Claim theorems: refresh output alignment -/

/-- C8: after a refresh the presentation state receives four
index-aligned sequences of equal length, and the i-th arrival entry is
the arrival predictor at the i-th timestamp and speed: present exactly
when that speed is positive, and then equal to the timestamp plus the
fixed distance divided by the speed. -/
theorem c8_output_aligned (mag plasma : Dict) (now : ℚ) :
    (refreshResult mag plasma now).bz.length =
      (refreshResult mag plasma now).times.length ∧
    (refreshResult mag plasma now).speeds.length =
      (refreshResult mag plasma now).times.length ∧
    (refreshResult mag plasma now).arrivals.length =
      (refreshResult mag plasma now).times.length ∧
    (∀ (i : Nat) (t s : ℚ),
      (refreshResult mag plasma now).times[i]? = some t →
      (refreshResult mag plasma now).speeds[i]? = some s →
      (refreshResult mag plasma now).arrivals[i]? =
          some (calculate_arrival_time t s) ∧
        ((calculate_arrival_time t s).isSome = true ↔ 0 < s) ∧
        (0 < s → calculate_arrival_time t s =
          some (t + L1_TO_EARTH_KM / s))) := by
  have hw := windowFilter_eq (now - HOURS_TO_DISPLAY * 3600)
    (zip3 (merge_data mag plasma).1 (merge_data mag plasma).2.1
      (merge_data mag plasma).2.2)
  have htimes : (refreshResult mag plasma now).times =
      ((zip3 (merge_data mag plasma).1 (merge_data mag plasma).2.1
          (merge_data mag plasma).2.2).filter
        fun x => decide (now - HOURS_TO_DISPLAY * 3600 ≤ x.1)).map
        (fun x => x.1) := by
    show (windowFilter (now - HOURS_TO_DISPLAY * 3600)
      (zip3 (merge_data mag plasma).1 (merge_data mag plasma).2.1
        (merge_data mag plasma).2.2)).1 = _
    rw [hw]
  have hbz : (refreshResult mag plasma now).bz =
      ((zip3 (merge_data mag plasma).1 (merge_data mag plasma).2.1
          (merge_data mag plasma).2.2).filter
        fun x => decide (now - HOURS_TO_DISPLAY * 3600 ≤ x.1)).map
        (fun x => x.2.1) := by
    show (windowFilter (now - HOURS_TO_DISPLAY * 3600)
      (zip3 (merge_data mag plasma).1 (merge_data mag plasma).2.1
        (merge_data mag plasma).2.2)).2.1 = _
    rw [hw]
  have hspeeds : (refreshResult mag plasma now).speeds =
      ((zip3 (merge_data mag plasma).1 (merge_data mag plasma).2.1
          (merge_data mag plasma).2.2).filter
        fun x => decide (now - HOURS_TO_DISPLAY * 3600 ≤ x.1)).map
        (fun x => x.2.2) := by
    show (windowFilter (now - HOURS_TO_DISPLAY * 3600)
      (zip3 (merge_data mag plasma).1 (merge_data mag plasma).2.1
        (merge_data mag plasma).2.2)).2.2.1 = _
    rw [hw]
  have harr : (refreshResult mag plasma now).arrivals =
      ((zip3 (merge_data mag plasma).1 (merge_data mag plasma).2.1
          (merge_data mag plasma).2.2).filter
        fun x => decide (now - HOURS_TO_DISPLAY * 3600 ≤ x.1)).map
        (fun x => calculate_arrival_time x.1 x.2.2) := by
    show (windowFilter (now - HOURS_TO_DISPLAY * 3600)
      (zip3 (merge_data mag plasma).1 (merge_data mag plasma).2.1
        (merge_data mag plasma).2.2)).2.2.2 = _
    rw [hw]
  refine ⟨?_, ?_, ?_, ?_⟩
  · rw [htimes, hbz]
    simp
  · rw [htimes, hspeeds]
    simp
  · rw [htimes, harr]
    simp
  · intro i t s hti hsi
    rw [htimes, List.getElem?_map] at hti
    rw [hspeeds, List.getElem?_map] at hsi
    obtain ⟨x, hx, hx1⟩ := Option.map_eq_some'.mp hti
    obtain ⟨y, hy, hy2⟩ := Option.map_eq_some'.mp hsi
    have hxy : x = y := by
      rw [hx] at hy
      exact Option.some.inj hy
    have h22 : x.2.2 = s := by
      rw [hxy]
      exact hy2
    refine ⟨?_, ?_, ?_⟩
    · rw [harr, List.getElem?_map, hx, Option.map_some', hx1, h22]
    · by_cases hs0 : s ≤ 0
      · simp [calculate_arrival_time, hs0, not_lt.mpr hs0]
      · simp [calculate_arrival_time, hs0, lt_of_not_le hs0]
    · intro h0
      simp [calculate_arrival_time, not_le.mpr h0]

/-- Witness for C8 at a concrete refresh with one joined sample. -/
theorem c8_output_aligned_witness :
    (refreshResult [((0:ℚ), (5:ℚ))] [((0:ℚ), (2:ℚ))] 0).times[0]? = some 0 ∧
    (refreshResult [((0:ℚ), (5:ℚ))] [((0:ℚ), (2:ℚ))] 0).speeds[0]? = some 2 ∧
    (refreshResult [((0:ℚ), (5:ℚ))] [((0:ℚ), (2:ℚ))] 0).arrivals[0]? =
      some (calculate_arrival_time 0 2) := by
  have hm : merge_data [((0:ℚ), (5:ℚ))] [((0:ℚ), (2:ℚ))] = ([0], [5], [2]) := by
    norm_num [merge_data, dkeys, dlookup, List.insertionSort, List.orderedInsert,
      List.dedup_cons_of_not_mem]
  have hT : (refreshResult [((0:ℚ), (5:ℚ))] [((0:ℚ), (2:ℚ))] 0).times[0]? =
      some 0 := by
    norm_num [refreshResult, hm, zip3, windowFilter, HOURS_TO_DISPLAY]
  have hS : (refreshResult [((0:ℚ), (5:ℚ))] [((0:ℚ), (2:ℚ))] 0).speeds[0]? =
      some 2 := by
    norm_num [refreshResult, hm, zip3, windowFilter, HOURS_TO_DISPLAY, dlookup]
  exact ⟨hT, hS, ((c8_output_aligned _ _ 0).2.2.2 0 0 2 hT hS).1⟩

/-! ### Hover hit-test lemmas -/

lemma closestAux_some_spec (mx : ℚ) (l : List ℚ) :
    ∀ (i : Nat) (md : ℚ) (j : Nat),
      ∃ md' j', closestAux mx l i (some (md, j)) = some (md', j') ∧
        md' ≤ md ∧ (∀ t ∈ l, md' ≤ |t - mx|) ∧
        ((md' = md ∧ j' = j) ∨
          ∃ k : Nat, ∃ hk : k < l.length, j' = i + k ∧
            md' = |l.get ⟨k, hk⟩ - mx|) := by
  induction l with
  | nil =>
    intro i md j
    exact ⟨md, j, rfl, le_refl md, by simp, Or.inl ⟨rfl, rfl⟩⟩
  | cons t rest ih =>
    intro i md j
    by_cases h : |t - mx| < md
    · obtain ⟨md', j', heq, hle, hall, hloc⟩ := ih (i + 1) (|t - mx|) i
      refine ⟨md', j', ?_, hle.trans h.le, ?_, ?_⟩
      · simpa [closestAux, h] using heq
      · intro u hu
        rcases List.mem_cons.mp hu with rfl | hu2
        · exact hle
        · exact hall u hu2
      · rcases hloc with ⟨hmd, hjj⟩ | ⟨k, hk, hjj, hmd⟩
        · right
          refine ⟨0, by simp, by omega, ?_⟩
          simpa using hmd
        · right
          refine ⟨k + 1, Nat.succ_lt_succ hk, by omega, ?_⟩
          simpa using hmd
    · obtain ⟨md', j', heq, hle, hall, hloc⟩ := ih (i + 1) md j
      refine ⟨md', j', ?_, hle, ?_, ?_⟩
      · simpa [closestAux, h] using heq
      · intro u hu
        rcases List.mem_cons.mp hu with rfl | hu2
        · exact hle.trans (not_lt.mp h)
        · exact hall u hu2
      · rcases hloc with hstay | ⟨k, hk, hjj, hmd⟩
        · exact Or.inl hstay
        · right
          exact ⟨k + 1, Nat.succ_lt_succ hk, by omega, by simpa using hmd⟩

/-- C9: on a non-empty series the hover handler picks an index whose
time distance to the pointer is minimal over all samples, and reports
it exactly when that distance, converted to seconds, is below the
600-second threshold; otherwise it reports none. -/
theorem c9_hover_nearest (times : List ℚ) (mouse_x : ℚ) (hne : times ≠ []) :
    ∃ i : Nat, ∃ h : i < times.length,
      (∀ (j : Nat) (hj : j < times.length),
        |times.get ⟨i, h⟩ - mouse_x| ≤ |times.get ⟨j, hj⟩ - mouse_x|) ∧
      on_hover times mouse_x =
        if |times.get ⟨i, h⟩ - mouse_x| * 86400 < 600 then some i
        else none := by
  obtain ⟨t, rest, rfl⟩ := List.exists_cons_of_ne_nil hne
  obtain ⟨md', j', heq, hle, hall, hloc⟩ :=
    closestAux_some_spec mouse_x rest 1 (|t - mouse_x|) 0
  have hstep : closestAux mouse_x (t :: rest) 0 none =
      closestAux mouse_x rest 1 (some (|t - mouse_x|, 0)) := by
    simp [closestAux]
  have hmin : ∀ (j2 : Nat) (hj2 : j2 < (t :: rest).length),
      md' ≤ |(t :: rest).get ⟨j2, hj2⟩ - mouse_x| := by
    intro j2 hj2
    cases j2 with
    | zero => simpa using hle
    | succ k2 =>
      have hk2 : k2 < rest.length := by simpa using hj2
      have hmem : rest.get ⟨k2, hk2⟩ ∈ rest := List.get_mem rest k2 hk2
      simpa using hall _ hmem
  have hj : ∃ hlt : j' < (t :: rest).length,
      md' = |(t :: rest).get ⟨j', hlt⟩ - mouse_x| := by
    rcases hloc with ⟨hmd, hjj⟩ | ⟨k, hk, hjj, hmd⟩
    · subst hjj
      exact ⟨by simp, by simpa using hmd⟩
    · have hjk : j' = k + 1 := by omega
      subst hjk
      refine ⟨Nat.succ_lt_succ hk, ?_⟩
      simpa using hmd
  obtain ⟨hlt, hmd'⟩ := hj
  refine ⟨j', hlt, ?_, ?_⟩
  · intro j2 hj2
    rw [← hmd']
    exact hmin j2 hj2
  · have hon : on_hover (t :: rest) mouse_x =
        if md' * 86400 < 600 then some j' else none := by
      simp [on_hover, hstep, heq]
    rw [hon, ← hmd']

/-- Witness for C9 on a one-sample series with the pointer on it. -/
theorem c9_hover_nearest_witness :
    ([(0:ℚ)] ≠ []) ∧
    (∃ i : Nat, ∃ h : i < ([(0:ℚ)]).length,
      (∀ (j : Nat) (hj : j < ([(0:ℚ)]).length),
        |([(0:ℚ)]).get ⟨i, h⟩ - 0| ≤ |([(0:ℚ)]).get ⟨j, hj⟩ - 0|) ∧
      on_hover [(0:ℚ)] 0 =
        if |([(0:ℚ)]).get ⟨i, h⟩ - 0| * 86400 < 600 then some i
        else none) := by
  have hne : ([(0:ℚ)]) ≠ [] := by simp
  exact ⟨hne, c9_hover_nearest [(0:ℚ)] 0 hne⟩


/-! ### Claim theorems: fetch boundary -/

lemma rowStep_cells (cs : List Cell) :
    rowStep (Row.cells cs) = Except.ok (parseRow cs) := by
  rcases h : parseRowTry cs with e | o <;> simp [rowStep, rowTry, parseRow, h]

lemma parseRow_nil : parseRow ([] : List Cell) = none := rfl

lemma parseRowsLoop_no_obj (l : List Row) (h : Row.obj ∉ l) :
    parseRowsLoop l = Except.ok (parseRows (l.map rowCells)) := by
  induction l with
  | nil => rfl
  | cons r rest ih =>
    have hrest : Row.obj ∉ rest := fun hm => h (List.mem_cons_of_mem r hm)
    rcases r with cs | _ | _
    · rcases hp : parseRow cs with _ | ⟨t, v⟩
      · simp [parseRowsLoop, rowStep_cells, hp, ih hrest, parseRows, rowCells]
      · simp [parseRowsLoop, rowStep_cells, hp, ih hrest, parseRows, rowCells]
    · exact absurd (List.mem_cons_self _ _) h
    · simp [parseRowsLoop, rowStep, rowTry, ih hrest, parseRows, rowCells,
        parseRow_nil]

lemma parseRowsLoop_obj (l : List Row) (h : Row.obj ∈ l) :
    parseRowsLoop l = Except.error () := by
  induction l with
  | nil => exact absurd h (List.not_mem_nil _)
  | cons r rest ih =>
    rcases r with cs | _ | _
    · have hrest : Row.obj ∈ rest := by
        rcases List.mem_cons.mp h with he | hm
        · exact absurd he (by simp)
        · exact hm
      rcases hp : parseRow cs with _ | ⟨t, v⟩
      · simp [parseRowsLoop, rowStep_cells, hp, ih hrest]
      · simp [parseRowsLoop, rowStep_cells, hp, ih hrest]
    · simp [parseRowsLoop, rowStep, rowTry]
    · have hrest : Row.obj ∈ rest := by
        rcases List.mem_cons.mp h with he | hm
        · exact absurd he (by simp)
        · exact hm
      simp [parseRowsLoop, rowStep, rowTry, ih hrest]

lemma magParseE_no_obj (l : List Row) (h : Row.obj ∉ l) :
    ∀ d : Dict, magParseE d l = Except.ok (List.foldl magStep d (l.map rowCells)) := by
  induction l with
  | nil => intro d; rfl
  | cons r rest ih =>
    intro d
    have hrest : Row.obj ∉ rest := fun hm => h (List.mem_cons_of_mem r hm)
    have hnil : magStep d ([] : List Cell) = d := rfl
    rcases r with cs | _ | _
    · rcases hp : parseRow cs with _ | ⟨t, v⟩
      · have hstep : magStep d cs = d := by simp [magStep, hp]
        simp [magParseE, rowStep_cells, hp, ih hrest, rowCells, hstep]
      · have hstep : magStep d cs = dinsert d t v := by simp [magStep, hp]
        simp [magParseE, rowStep_cells, hp, ih hrest, rowCells, hstep]
    · exact absurd (List.mem_cons_self _ _) h
    · simp [magParseE, rowStep, rowTry, ih hrest, rowCells, hnil]

lemma magParseE_obj (l : List Row) (h : Row.obj ∈ l) :
    ∀ d : Dict, magParseE d l = Except.error () := by
  induction l with
  | nil => exact absurd h (List.not_mem_nil _)
  | cons r rest ih =>
    intro d
    rcases r with cs | _ | _
    · have hrest : Row.obj ∈ rest := by
        rcases List.mem_cons.mp h with he | hm
        · exact absurd he (by simp)
        · exact hm
      rcases hp : parseRow cs with _ | ⟨t, v⟩
      · simp [magParseE, rowStep_cells, hp, ih hrest]
      · simp [magParseE, rowStep_cells, hp, ih hrest]
    · simp [magParseE, rowStep, rowTry]
    · have hrest : Row.obj ∈ rest := by
        rcases List.mem_cons.mp h with he | hm
        · exact absurd he (by simp)
        · exact hm
      simp [magParseE, rowStep, rowTry, ih hrest]

/-- C6 counterexample: in src/bz.py a response body decoding to the
JSON number 5 passes both except clauses, then len(data) raises an
uncaught TypeError, so the fetch function propagates an exception. -/
theorem c6_fetch_boundary_counterexample :
    fetch_and_parse_data (Except.ok (TopLevel.jnum 5)) = Except.error () := by
  norm_num [fetch_and_parse_data, pyTruthy, pyLen]

/-- C6 amended: transport and JSON-decode failures degrade to the
empty result in both scripts, and fetch_mag_data of src/bz-2.py
returns a dict on every modelled payload shape since its try/except
Exception spans the whole body — an object row only empties the whole
fetch; but fetch_and_parse_data of src/bz.py propagates an uncaught
TypeError when the body decodes to a truthy number or to an object
with at least two keys, and an uncaught KeyError when an array payload
carries a JSON-object row after the header; array payloads with no
object row among the data rows are handled without propagation. -/
theorem c6_fetch_boundary (e : Unit) (rows : List Row) (n : ℚ) (k : Nat) :
    fetch_and_parse_data (Except.error e) = Except.ok ([], []) ∧
    fetch_mag_data (Except.error e) = [] ∧
    fetch_mag_data (Except.ok (TopLevel.jnum n)) = [] ∧
    fetch_mag_data (Except.ok (TopLevel.jobj k)) = [] ∧
    (Row.obj ∉ rows.drop 1 →
      fetch_mag_data (Except.ok (TopLevel.jarr rows)) =
        magParse ((rows.drop 1).map rowCells)) ∧
    (Row.obj ∈ rows.drop 1 →
      fetch_mag_data (Except.ok (TopLevel.jarr rows)) = []) ∧
    (Row.obj ∉ rows.drop 1 →
      fetch_and_parse_data (Except.ok (TopLevel.jarr rows)) =
        Except.ok (parseRows ((rows.drop 1).map rowCells))) ∧
    (Row.obj ∈ rows.drop 1 →
      fetch_and_parse_data (Except.ok (TopLevel.jarr rows)) =
        Except.error ()) ∧
    (n ≠ 0 → fetch_and_parse_data (Except.ok (TopLevel.jnum n)) =
      Except.error ()) ∧
    (2 ≤ k → fetch_and_parse_data (Except.ok (TopLevel.jobj k)) =
      Except.error ()) := by
  refine ⟨rfl, rfl, ?_, ?_, ?_, ?_, ?_, ?_, ?_, ?_⟩
  · by_cases hn : n = 0
    · simp [fetch_mag_data, fetch_mag_run, pyTruthy, hn]
    · simp [fetch_mag_data, fetch_mag_run, pyTruthy, pyLen, hn]
  · rcases k with _ | k1
    · simp [fetch_mag_data, fetch_mag_run, pyTruthy]
    · rcases k1 with _ | k2
      · simp [fetch_mag_data, fetch_mag_run, pyTruthy, pyLen]
      · have h2 : ¬ (k2 + 1 + 1 < 2) := by omega
        simp [fetch_mag_data, fetch_mag_run, pyTruthy, pyLen, pySlice1, h2]
  · intro hobj
    rcases rows with _ | ⟨r, rest⟩
    · simp [fetch_mag_data, fetch_mag_run, pyTruthy, magParse]
    · rcases rest with _ | ⟨r2, rest2⟩
      · simp [fetch_mag_data, fetch_mag_run, pyTruthy, pyLen, magParse]
      · have h2 : ¬ (rest2.length + 1 + 1 < 2) := by omega
        have hno : Row.obj ∉ (r2 :: rest2) := by simpa using hobj
        simp [fetch_mag_data, fetch_mag_run, pyTruthy, pyLen, pySlice1, h2,
          magParseE_no_obj _ hno, magParse]
  · intro hobj
    rcases rows with _ | ⟨r, rest⟩
    · exact absurd hobj (by simp)
    · rcases rest with _ | ⟨r2, rest2⟩
      · exact absurd hobj (by simp)
      · have h2 : ¬ (rest2.length + 1 + 1 < 2) := by omega
        have hin : Row.obj ∈ (r2 :: rest2) := by simpa using hobj
        simp [fetch_mag_data, fetch_mag_run, pyTruthy, pyLen, pySlice1, h2,
          magParseE_obj _ hin]
  · intro hobj
    rcases rows with _ | ⟨r, rest⟩
    · simp [fetch_and_parse_data, pyTruthy, parseRows]
    · rcases rest with _ | ⟨r2, rest2⟩
      · simp [fetch_and_parse_data, pyTruthy, pyLen, parseRows]
      · have h2 : ¬ (rest2.length + 1 + 1 < 2) := by omega
        have hno : Row.obj ∉ (r2 :: rest2) := by simpa using hobj
        simp [fetch_and_parse_data, pyTruthy, pyLen, pySlice1, h2,
          parseRowsLoop_no_obj _ hno]
  · intro hobj
    rcases rows with _ | ⟨r, rest⟩
    · exact absurd hobj (by simp)
    · rcases rest with _ | ⟨r2, rest2⟩
      · exact absurd hobj (by simp)
      · have h2 : ¬ (rest2.length + 1 + 1 < 2) := by omega
        have hin : Row.obj ∈ (r2 :: rest2) := by simpa using hobj
        simp [fetch_and_parse_data, pyTruthy, pyLen, pySlice1, h2,
          parseRowsLoop_obj _ hin]
  · intro hn
    simp [fetch_and_parse_data, pyTruthy, pyLen, hn]
  · intro hk
    have hk0 : ¬ (k = 0) := by omega
    have hk2 : ¬ (k < 2) := by omega
    simp [fetch_and_parse_data, pyTruthy, pyLen, pySlice1, hk0, hk2]

/-- Witness for C6 amended: the failure outcome degrades to empty, the
number body escapes in src/bz.py, and so does an array payload with an
object data row, while src/bz-2.py empties instead of propagating on
that same array. -/
theorem c6_fetch_boundary_witness :
    fetch_and_parse_data (Except.error ()) = Except.ok ([], []) ∧
    ((5:ℚ) ≠ 0 ∧ fetch_and_parse_data (Except.ok (TopLevel.jnum 5)) =
      Except.error ()) ∧
    (Row.obj ∈ ([Row.cells [], Row.obj] : List Row).drop 1 ∧
      fetch_and_parse_data
        (Except.ok (TopLevel.jarr [Row.cells [], Row.obj])) =
        Except.error ()) ∧
    fetch_mag_data (Except.ok (TopLevel.jarr [Row.cells [], Row.obj])) = [] := by
  have h5 : (5:ℚ) ≠ 0 := by norm_num
  have hobj : Row.obj ∈ ([Row.cells [], Row.obj] : List Row).drop 1 := by simp
  exact ⟨(c6_fetch_boundary () [] 5 0).1,
    ⟨h5, (c6_fetch_boundary () [] 5 0).2.2.2.2.2.2.2.2.1 h5⟩,
    ⟨hobj,
      (c6_fetch_boundary () [Row.cells [], Row.obj] 5 0).2.2.2.2.2.2.2.1 hobj⟩,
    (c6_fetch_boundary () [Row.cells [], Row.obj] 5 0).2.2.2.2.2.1 hobj⟩
